import Mathlib

/-!
Verification of the authentication/record-store core of the
`desarrollo-backend-ifts29` backend (files `src/services/database.service.js`
and `src/services/auth.service.js`), as a shallow embedding in Lean 4.

Conventions of the embedding:
* JavaScript objects handled by the *generic* CRUD layer are modelled as
  association lists (`Obj`) in which a later binding overrides an earlier
  one, exactly like object-spread (`... a, ... b` lets `b` win).
* JavaScript numbers used as identifiers are modelled as `Int`.
* A thrown exception is modelled as the `error` case of `Except`;
  `try/catch` blocks become `match` on that `Except`.
* File persistence (`saveData`) always succeeds in the model: a mutation
  returns the updated in-memory document together with its result.
* `bcrypt` and `jsonwebtoken` are third-party libraries, not repository
  code; they are modelled symbolically from the spec (salted one-way hash,
  signed token with embedded expiry) with the standard ideal-MAC treatment.
-/

namespace Backend

/-- A primitive JSON/JavaScript value as it occurs in the flat records of
`db.json` that the generic CRUD layer manipulates. -/
inductive Value
  | vInt (n : Int)
  | vStr (s : String)
  | vBool (b : Bool)
  | vNull
deriving DecidableEq, Repr

/-- A JavaScript object, as an association list of key/value bindings.
A later binding overrides an earlier one, matching object-spread. -/
abbrev Obj := List (String × Value)

/-- Property access `o[k]`: the last binding for `k` wins, as in
JavaScript where a later spread overrides an earlier key. -/
def Obj.get : Obj → String → Option Value
  | [], _ => none
  | (k, v) :: rest, key =>
    match Obj.get rest key with
    | some w => some w
    | none => if k = key then some v else none

/-- The integer identifier of a record, when it has one (`item.id`). -/
def idOf (o : Obj) : Option Int :=
  match o.get "id" with
  | some (.vInt n) => some n
  | _ => none

/-- One collection of the store (`this.data[tableName]`). -/
abbrev Collection := List Obj

/-- The in-memory document `this.data`: top-level collection names mapped
to collections. -/
abbrev DB := List (String × Collection)

/-- Errors thrown by `database.service.js`. -/
inductive DbError
  | tableNotFound (table : String)
  | notFound (table : String) (id : Int)
  | userNotFound (usuario : String)
  | validation (msg : String)
deriving DecidableEq, Repr

/-- Look up a collection by name (`this.data[tableName]`). -/
def DB.getTable : DB → String → Option Collection
  | [], _ => none
  | (k, c) :: rest, t => if k = t then some c else DB.getTable rest t

/-- Replace the named collection in the document (in-place mutation of
`this.data[tableName]` in the source). -/
def DB.setTable : DB → String → Collection → DB
  | [], _, _ => []
  | (k, c) :: rest, t, col =>
    if k = t then (k, col) :: rest else (k, c) :: DB.setTable rest t col

/-- The predicate `item.id === parseInt(id)` used by lookups. -/
def hasId (id : Int) (o : Obj) : Bool :=
  decide (o.get "id" = some (.vInt id))

/-- Index of the first record matching a predicate
(`Array.prototype.findIndex`, with `none` for `-1`). -/
def findIdx (p : Obj → Bool) : Collection → Option Nat
  | [] => none
  | x :: xs => if p x then some 0 else (findIdx p xs).map (· + 1)

/-- The value `Math.max(...ids)` over the ids of a non-empty collection;
`0` for an empty one (a record without an integer id contributes `0`,
a case excluded by the well-formedness hypotheses of the theorems). -/
def maxIdOf (col : Collection) : Int :=
  match col.map (fun r => (idOf r).getD 0) with
  | [] => 0
  | x :: xs => xs.foldl max x

/-- Embedding of `DatabaseService.getById(tableName, id)`. -/
def getById (db : DB) (tableName : String) (id : Int) : Except DbError Obj :=
  match db.getTable tableName with
  | none => .error (.tableNotFound tableName)
  | some col =>
    match col.find? (hasId id) with
    | none => .error (.notFound tableName id)
    | some record => .ok record

/-- Embedding of `DatabaseService.create(tableName, newRecord)`: computes
`maxId`, builds the spread `.. id: maxId + 1, ...newRecord ..` (a caller
binding for `id` overrides the generated one), appends and persists. -/
def create (db : DB) (tableName : String) (newRecord : Obj) :
    Except DbError (Obj × DB) :=
  match db.getTable tableName with
  | none => .error (.tableNotFound tableName)
  | some col =>
    let maxId : Int := if col.length > 0 then maxIdOf col else 0
    let recordWithId : Obj := ("id", .vInt (maxId + 1)) :: newRecord
    .ok (recordWithId, db.setTable tableName (col ++ [recordWithId]))

/-- Embedding of `DatabaseService.update(tableName, id, updatedData)`:
the stored record becomes the spread of the old record, the update object
and a final re-pinned `id`, in that override order. -/
def update (db : DB) (tableName : String) (id : Int) (updatedData : Obj) :
    Except DbError (Obj × DB) :=
  match db.getTable tableName with
  | none => .error (.tableNotFound tableName)
  | some col =>
    match findIdx (hasId id) col with
    | none => .error (.notFound tableName id)
    | some index =>
      let oldRecord := col.getD index []
      let newRecord : Obj := oldRecord ++ updatedData ++ [("id", .vInt id)]
      .ok (newRecord, db.setTable tableName (col.set index newRecord))

/-- Embedding of `DatabaseService.delete(tableName, id)`: `splice` of the
first record whose id matches. -/
def deleteRec (db : DB) (tableName : String) (id : Int) :
    Except DbError (Obj × DB) :=
  match db.getTable tableName with
  | none => .error (.tableNotFound tableName)
  | some col =>
    match findIdx (hasId id) col with
    | none => .error (.notFound tableName id)
    | some index =>
      .ok (col.getD index [], db.setTable tableName (col.eraseIdx index))

/-- JavaScript truthiness of an optional field value, as used by the
required-field validations (`if (!descripcion || ...)`). -/
def truthy : Option Value → Bool
  | none => false
  | some .vNull => false
  | some (.vInt n) => decide (n ≠ 0)
  | some (.vStr s) => decide (s ≠ "")
  | some (.vBool b) => b

/-- Embedding of `DatabaseService.createTarea(tareaData)`: validates the
required fields by truthiness, then forwards the caller's whole object
(including any `id` key it may carry) to the generic `create`. -/
def createTarea (db : DB) (tareaData : Obj) : Except DbError (Obj × DB) :=
  if ¬ (truthy (tareaData.get "descripcion") ∧ truthy (tareaData.get "empleadoId") ∧
        truthy (tareaData.get "estado") ∧ truthy (tareaData.get "fecha")) then
    .error (.validation "Descripcion, empleadoId, estado y fecha son requeridos")
  else
    create db "tareas" tareaData

/-!
Typed view of the entity layer.  The entity-specific operations of
`database.service.js` only ever touch their own collection through the
generic CRUD specialised at that collection, with records of a fixed
shape; they are embedded below as typed mirrors of those specialisations.
-/

/-- Modelled from the spec: the `bcrypt` library (not repository code).
A stored password is either a salted one-way hash of a plaintext, or a raw
string that was persisted without hashing. -/
inductive StoredPw
  | hashed (plain : String) (salt : Nat)
  | raw (s : String)
deriving DecidableEq, Repr

/-- Modelled from the spec: `bcrypt.hash(plain, saltRounds)` with the salt
made an explicit argument. -/
def bcryptHash (plain : String) (salt : Nat) : StoredPw := .hashed plain salt

/-- Modelled from the spec: `bcrypt.compare(password, stored)` — succeeds
exactly when `stored` is a hash of `password`; a raw non-hash string never
compares equal. -/
def bcryptCompare (password : String) (stored : StoredPw) : Bool :=
  match stored with
  | .hashed p _ => decide (password = p)
  | .raw _ => false

/-- A record of the `roles` collection. -/
structure Rol where
  id : Int
  nombre : String
  permisos : List String
deriving DecidableEq, Repr

/-- A record of the `usuarios` collection. -/
structure Usuario where
  id : Int
  usuario : String
  password : StoredPw
  rolId : Int
  perfilId : Int
  tipoPerfilId : Option Int
deriving DecidableEq, Repr

/-- A record of the `perfiles` collection. -/
structure Perfil where
  id : Int
  tipo : String
  empleadoId : Option Int
  pacienteId : Option Int
deriving DecidableEq, Repr

/-- A record of the `empleados` collection. -/
structure Empleado where
  id : Int
  nombre : String
  puesto : String
deriving DecidableEq, Repr

/-- A record of the `pacientes` collection. -/
structure Paciente where
  id : Int
  nombre : String
  dni : String
  historiaClinica : Option String
deriving DecidableEq, Repr

/-- A record of the `tareas` collection. -/
structure Tarea where
  id : Int
  descripcion : String
  empleadoId : Int
  estado : String
  fecha : String
  pacienteId : Option Int
deriving DecidableEq, Repr

/-- The typed in-memory document for the entity-level operations. -/
structure Store where
  roles : List Rol
  usuarios : List Usuario
  perfiles : List Perfil
  empleados : List Empleado
  pacientes : List Paciente
  tareas : List Tarea
deriving DecidableEq, Repr

/-- Truthiness of an optional integer foreign key
(`perfil.empleadoId`, `tarea.pacienteId`, ...): absent, null and `0` are
falsy. -/
def truthyId : Option Int → Bool
  | none => false
  | some n => decide (n ≠ 0)

/-- Embedding of `getById('roles', id)` (`getRoleById`). -/
def getRoleById (s : Store) (id : Int) : Except DbError Rol :=
  match s.roles.find? (fun r => decide (r.id = id)) with
  | none => .error (.notFound "roles" id)
  | some r => .ok r

/-- Embedding of `getById('usuarios', id)` (`getUsuarioById`). -/
def getUsuarioById (s : Store) (id : Int) : Except DbError Usuario :=
  match s.usuarios.find? (fun r => decide (r.id = id)) with
  | none => .error (.notFound "usuarios" id)
  | some r => .ok r

/-- Embedding of `getById('perfiles', id)` (`getPerfilById`). -/
def getPerfilById (s : Store) (id : Int) : Except DbError Perfil :=
  match s.perfiles.find? (fun r => decide (r.id = id)) with
  | none => .error (.notFound "perfiles" id)
  | some r => .ok r

/-- Embedding of `getById('empleados', id)` (`getEmpleadoById`). -/
def getEmpleadoById (s : Store) (id : Int) : Except DbError Empleado :=
  match s.empleados.find? (fun r => decide (r.id = id)) with
  | none => .error (.notFound "empleados" id)
  | some r => .ok r

/-- Embedding of `getById('pacientes', id)` (`getPacienteById`). -/
def getPacienteById (s : Store) (id : Int) : Except DbError Paciente :=
  match s.pacientes.find? (fun r => decide (r.id = id)) with
  | none => .error (.notFound "pacientes" id)
  | some r => .ok r

/-- Embedding of `getUsuarioByUsername(usuario)`: linear scan, throws
when absent. -/
def getUsuarioByUsername (s : Store) (usuario : String) :
    Except DbError Usuario :=
  match s.usuarios.find? (fun u => decide (u.usuario = usuario)) with
  | none => .error (.userNotFound usuario)
  | some u => .ok u

/-- Result of `getUsuarioCompleto`: the user spread together with its
role and its profile, the profile enriched with the linked employee or
patient detail when present. -/
structure UsuarioCompleto where
  usuario : Usuario
  rol : Rol
  perfil : Perfil
  empleado : Option Empleado
  paciente : Option Paciente
deriving DecidableEq, Repr

/-- Embedding of `getUsuarioCompleto(id)`: a mandatory
User → Role → Profile chain (each lookup throws when dangling), then the
optional employee/patient detail guarded by the profile kind and the
truthiness of the foreign key. -/
def getUsuarioCompleto (s : Store) (id : Int) :
    Except DbError UsuarioCompleto :=
  match getUsuarioById s id with
  | .error e => .error e
  | .ok u =>
    match getRoleById s u.rolId with
    | .error e => .error e
    | .ok rol =>
      match getPerfilById s u.perfilId with
      | .error e => .error e
      | .ok perfil =>
        if perfil.tipo = "empleado" ∧ truthyId perfil.empleadoId then
          match getEmpleadoById s (perfil.empleadoId.getD 0) with
          | .error e => .error e
          | .ok emp => .ok ⟨u, rol, perfil, some emp, none⟩
        else if perfil.tipo = "paciente" ∧ truthyId perfil.pacienteId then
          match getPacienteById s (perfil.pacienteId.getD 0) with
          | .error e => .error e
          | .ok pac => .ok ⟨u, rol, perfil, none, some pac⟩
        else .ok ⟨u, rol, perfil, none, none⟩

/-- One element of the list built by `getTareasCompletas`: the task spread
with its employee and its (optional) patient. -/
structure TareaCompleta where
  tarea : Tarea
  empleado : Empleado
  paciente : Option Paciente
deriving DecidableEq, Repr

/-- The body of the `for` loop of `getTareasCompletas` for one task: the
employee lookup is unconditional, the patient lookup is guarded by the
truthiness of `tarea.pacienteId`; either lookup throws when dangling. -/
def resolveTarea (s : Store) (t : Tarea) : Except DbError TareaCompleta :=
  match getEmpleadoById s t.empleadoId with
  | .error e => .error e
  | .ok emp =>
    if truthyId t.pacienteId then
      match getPacienteById s (t.pacienteId.getD 0) with
      | .error e => .error e
      | .ok pac => .ok ⟨t, emp, some pac⟩
    else .ok ⟨t, emp, none⟩

/-- Accumulating loop over a list where the body may throw: the first
thrown error aborts the whole traversal (the `for ... of` loop of
`getTareasCompletas` inside the service's promise). -/
def mapExcept (f : α → Except ε β) : List α → Except ε (List β)
  | [] => .ok []
  | x :: xs =>
    match f x with
    | .error e => .error e
    | .ok b =>
      match mapExcept f xs with
      | .error e => .error e
      | .ok bs => .ok (b :: bs)

/-- Embedding of `getTareasCompletas()`: the loop accumulates the resolved
tasks in order; a thrown lookup aborts the whole composition. -/
def getTareasCompletas (s : Store) : Except DbError (List TareaCompleta) :=
  mapExcept (resolveTarea s) s.tareas

/-- Mirror of the generic `maxId` computation specialised at a typed
collection: `Math.max(...ids)` for a non-empty list, `0` otherwise. -/
def maxTypedId (ids : List Int) : Int :=
  match ids with
  | [] => 0
  | x :: xs => xs.foldl max x

/-- Input object of `createUsuario(userData)`; an absent key is `none`. -/
structure UsuarioData where
  usuario : Option String
  password : Option String
  rolId : Option Int
  perfilId : Option Int
  tipoPerfilId : Option Int
deriving DecidableEq, Repr

/-- Truthiness of an optional string field (`!usuario`, `!password`). -/
def truthyStr : Option String → Bool
  | none => false
  | some s => decide (s ≠ "")

/-- Embedding of `createUsuario(userData)`: validates the required fields,
hashes the password with a salt, builds `usuarioData` (adding
`tipoPerfilId` only when truthy) and delegates to the generic
`create('usuarios', ...)`, whose id generation is mirrored here at the
typed collection. -/
def createUsuario (s : Store) (salt : Nat) (d : UsuarioData) :
    Except DbError (Usuario × Store) :=
  if ¬ (truthyStr d.usuario ∧ truthyStr d.password ∧
        truthyId d.rolId ∧ truthyId d.perfilId) then
    .error (.validation "Usuario, password, rolId y perfilId son requeridos")
  else
    let hashedPassword := bcryptHash ((d.password).getD "") salt
    let newId := (if s.usuarios.length > 0
        then maxTypedId (s.usuarios.map (·.id)) else 0) + 1
    let record : Usuario :=
      ⟨newId, (d.usuario).getD "", hashedPassword, (d.rolId).getD 0,
        (d.perfilId).getD 0,
        if truthyId d.tipoPerfilId then d.tipoPerfilId else none⟩
    .ok (record, { s with usuarios := s.usuarios ++ [record] })

/-- Partial update object of `updateUsuario(id, userData)`; an absent key
is `none`.  The password arrives as the caller supplied it (`StoredPw.raw`
for a plaintext string). -/
structure UsuarioPatch where
  usuario : Option String
  password : Option StoredPw
  rolId : Option Int
  perfilId : Option Int
  tipoPerfilId : Option Int
deriving DecidableEq, Repr

/-- Truthiness of the `userData.password` field of `updateUsuario`. -/
def truthyPw : Option StoredPw → Bool
  | none => false
  | some (.raw p) => decide (p ≠ "")
  | some (.hashed _ _) => true

/-- The plaintext the caller supplied in a patch password field. -/
def patchPlain : StoredPw → String
  | .raw p => p
  | .hashed p _ => p

/-- Embedding of `updateUsuario(id, userData)`: hashes `userData.password`
when truthy, then performs the generic `update('usuarios', id, ...)` —
the spread of the old record, the patch, and the re-pinned id. -/
def updateUsuario (s : Store) (salt : Nat) (id : Int) (d : UsuarioPatch) :
    Except DbError (Usuario × Store) :=
  let d2 : UsuarioPatch :=
    if truthyPw d.password then
      { d with password := some (bcryptHash (patchPlain ((d.password).getD (.raw ""))) salt) }
    else d
  match s.usuarios.findIdx? (fun r => decide (r.id = id)) with
  | none => .error (.notFound "usuarios" id)
  | some index =>
    let old := (s.usuarios.getD index ⟨0, "", .raw "", 0, 0, none⟩)
    let merged : Usuario :=
      ⟨id, (d2.usuario).getD old.usuario, (d2.password).getD old.password,
        (d2.rolId).getD old.rolId, (d2.perfilId).getD old.perfilId,
        match d2.tipoPerfilId with
        | some v => some v
        | none => old.tipoPerfilId⟩
    .ok (merged, { s with usuarios := s.usuarios.set index merged })

/-!
Token authority and authentication service (`auth.service.js`).
Times are explicit arguments: `nowMs` is `Date.now()` in milliseconds,
`now` a clock in epoch seconds for token verification, `expSec` the
configured token lifetime (`jwtExpiresIn`) in seconds.
-/

/-- The JWT payload built by `crearSesion`: identity, role name,
permission list and issued-at (epoch seconds). -/
structure Claims where
  id : Int
  usuario : String
  rol : Option String
  permisos : List String
  iat : Nat
deriving DecidableEq, Repr

/-- Modelled from the spec: a signed token of the `jsonwebtoken` library
(not repository code).  The signature is symbolic (ideal MAC): it records
the signing secret together with every signed field, so it matches under
verification exactly when nothing was altered. -/
structure Token where
  payload : Claims
  exp : Nat
  iss : String
  sub : String
  sig : String × Claims × Nat × String × String
deriving DecidableEq, Repr

/-- Modelled from the spec: `jwt.sign(payload, secret, options)` — embeds
the expiry `iat + expSec`, the issuer and the subject, and signs the
whole content with the secret. -/
def jwtSign (secret : String) (payload : Claims) (expSec : Nat)
    (iss sub : String) : Token :=
  ⟨payload, payload.iat + expSec, iss, sub,
    (secret, payload, payload.iat + expSec, iss, sub)⟩

/-- Modelled from the spec: `jwt.verify(token, secret)` at clock `now` —
recomputes the signature over the token's content and checks the embedded
expiry; a signature mismatch and an expired token both throw, which the
caller observes as the single failure value `none`. -/
def jwtVerify (secret : String) (now : Nat) (t : Token) : Option Claims :=
  if t.sig = (secret, t.payload, t.exp, t.iss, t.sub) ∧ now < t.exp then
    some t.payload
  else none

/-- An entry of `sesionesActivas`, the in-memory session cache
(timestamps in milliseconds). -/
structure Sesion where
  id : Token
  usuarioId : Int
  usuario : String
  rol : Option String
  permisos : List String
  fechaCreacion : Nat
  ultimaActividad : Nat
  activa : Bool
deriving DecidableEq, Repr

/-- The session cache `sesionesActivas`: a map from token to session. -/
abbrev SessionCache := List (Token × Sesion)

/-- Lookup in the session cache (`Map.prototype.get`). -/
def cacheGet (c : SessionCache) (t : Token) : Option Sesion :=
  match c.find? (fun p => decide (p.1 = t)) with
  | none => none
  | some p => some p.2

/-- Insertion in the session cache (`Map.prototype.set`): replaces the
existing binding or appends a new one. -/
def cacheSet : SessionCache → Token → Sesion → SessionCache
  | [], t, s => [(t, s)]
  | (k, v) :: rest, t, s =>
    if k = t then (t, s) :: rest else (k, v) :: cacheSet rest t s

/-- The object returned by `crearSesion` (the nested `usuario` object is
flattened into the `usuario*` fields; `expiresIn` is the configured
lifetime in seconds). -/
structure SesionData where
  token : Token
  sessionId : Token
  usuarioId : Int
  usuarioNombre : String
  usuarioRol : Option String
  usuarioPerfil : Perfil
  permisos : List String
  fechaCreacion : Nat
  expiresIn : Nat
deriving DecidableEq, Repr

/-- Embedding of `AuthService.crearSesion(usuario)`: builds the claims
payload from the complete user (the role is present after the mandatory
join, so `usuario.rol?.nombre` is its name), signs the token, tracks the
session in the cache and returns the session data. -/
def crearSesion (secret : String) (expSec nowMs : Nat) (cache : SessionCache)
    (u : UsuarioCompleto) : SesionData × SessionCache :=
  let payload : Claims :=
    ⟨u.usuario.id, u.usuario.usuario, some u.rol.nombre, u.rol.permisos,
      nowMs / 1000⟩
  let token := jwtSign secret payload expSec "backend-ifts" (toString u.usuario.id)
  let ses : Sesion :=
    ⟨token, u.usuario.id, u.usuario.usuario, some u.rol.nombre,
      u.rol.permisos, nowMs, nowMs, true⟩
  (⟨token, token, u.usuario.id, u.usuario.usuario, some u.rol.nombre,
      u.perfil, u.rol.permisos, nowMs, expSec⟩,
    cacheSet cache token ses)

/-- Embedding of `AuthService.validarToken(token)`: `jwt.verify` with the
service secret; a thrown verification error is caught and becomes `null`,
uniformly for a bad signature and for an expired token. -/
def validarToken (secret : String) (now : Nat) (token : Token) :
    Option Claims :=
  jwtVerify secret now token

/-- Embedding of `AuthService.obtenerSesion(sessionId)`: validates the
token first; a cached active entry is returned with its last activity
refreshed; otherwise (absent, or present but inactive) a session is
reconstructed from the token's claims, re-inserted and returned. -/
def obtenerSesion (secret : String) (now nowMs : Nat) (cache : SessionCache)
    (token : Token) : Option Sesion × SessionCache :=
  match validarToken secret now token with
  | none => (none, cache)
  | some payload =>
    let recreada : Sesion :=
      ⟨token, payload.id, payload.usuario, payload.rol, payload.permisos,
        payload.iat * 1000, nowMs, true⟩
    match cacheGet cache token with
    | some ses =>
      if ses.activa then
        let refreshed := { ses with ultimaActividad := nowMs }
        (some refreshed, cacheSet cache token refreshed)
      else (some recreada, cacheSet cache token recreada)
    | none => (some recreada, cacheSet cache token recreada)

/-- Outcome of the authentication flow, as returned to the caller. -/
inductive AuthResult
  | success (message : String) (usuario : UsuarioCompleto)
      (sesion : SesionData) (permisos : List String)
  | failure (message : String) (code : String)
deriving DecidableEq, Repr

/-- JavaScript truthiness of a returned user object: an object is always
truthy, so the `if (!usuarioEncontrado)` guard of `autenticarUsuario` can
never fire — a lookup miss throws inside `getUsuarioByUsername` instead
and lands in the catch-all. -/
def objTruthy (_ : Usuario) : Bool := true

/-- Embedding of `AuthService.autenticarUsuario(usuario, password)`:
username lookup, bcrypt comparison, complete-user resolution, session
creation; every error thrown by a database call is caught by the
enclosing `try/catch` and reported as `INTERNAL_ERROR`. -/
def autenticarUsuario (s : Store) (secret : String) (expSec nowMs : Nat)
    (cache : SessionCache) (usuario password : String) :
    AuthResult × SessionCache :=
  match getUsuarioByUsername s usuario with
  | .error _ =>
    (.failure "Error interno del servidor" "INTERNAL_ERROR", cache)
  | .ok user =>
    if ¬ objTruthy user then
      (.failure "Credenciales inválidas" "USER_NOT_FOUND", cache)
    else if ¬ bcryptCompare password user.password then
      (.failure "Contraseña incorrecta" "INVALID_PASSWORD", cache)
    else
      match getUsuarioCompleto s user.id with
      | .error _ =>
        (.failure "Error interno del servidor" "INTERNAL_ERROR", cache)
      | .ok usuarioCompleto =>
        let creada := crearSesion secret expSec nowMs cache usuarioCompleto
        (.success "Autenticación exitosa" usuarioCompleto creada.1
            usuarioCompleto.rol.permisos, creada.2)

/-- Embedding of `AuthService.esAdministrador(usuario)`: the resolved
role exists and its name is the reserved `admin` role. -/
def esAdministrador (u : UsuarioCompleto) : Bool :=
  decide (u.rol.nombre = "admin")

/-- Embedding of `AuthService.autenticarAdmin(usuario, password)`:
delegates to `autenticarUsuario`, then requires `esAdministrador`, else
fails with `INSUFFICIENT_PERMISSIONS` (the session created by
`autenticarUsuario` stays in the cache either way). -/
def autenticarAdmin (s : Store) (secret : String) (expSec nowMs : Nat)
    (cache : SessionCache) (usuario password : String) :
    AuthResult × SessionCache :=
  match autenticarUsuario s secret expSec nowMs cache usuario password with
  | (.failure m c, cache2) => (.failure m c, cache2)
  | (.success m u ses perms, cache2) =>
    if ¬ esAdministrador u then
      (.failure "Acceso denegado: Se requieren permisos de administrador"
          "INSUFFICIENT_PERMISSIONS", cache2)
    else (.success m u ses perms, cache2)

/-!
Concrete fixtures used by the witness theorems: a small typed store with
an administrator and a non-administrator user.
-/

/-- Fixture: a store with an `admin`-role user and a `medico`-role user,
both with employee profiles carrying no linked detail record. -/
def wStore : Store :=
  ⟨[⟨1, "admin", ["manage_users"]⟩, ⟨2, "medico", ["acceso_medico"]⟩],
   [⟨1, "admin", .hashed "admin123" 10, 1, 1, none⟩,
    ⟨2, "doc", .hashed "pw" 10, 2, 2, none⟩],
   [⟨1, "empleado", none, none⟩, ⟨2, "empleado", none, none⟩],
   [], [], []⟩

/-- Fixture: the stored administrator user of `wStore`. -/
def wAdmin : Usuario := ⟨1, "admin", .hashed "admin123" 10, 1, 1, none⟩

/-- Fixture: the stored non-administrator user of `wStore`. -/
def wDoc : Usuario := ⟨2, "doc", .hashed "pw" 10, 2, 2, none⟩

/-- Fixture: the complete-user view of `wAdmin` in `wStore`. -/
def wAdminC : UsuarioCompleto :=
  ⟨wAdmin, ⟨1, "admin", ["manage_users"]⟩, ⟨1, "empleado", none, none⟩,
    none, none⟩

/-- Fixture: the complete-user view of `wDoc` in `wStore`. -/
def wDocC : UsuarioCompleto :=
  ⟨wDoc, ⟨2, "medico", ["acceso_medico"]⟩, ⟨2, "empleado", none, none⟩,
    none, none⟩

/-!
Helper lemmas shared by the claim theorems.
-/

/-- The seed of a `foldl max` is a lower bound of the result. -/
lemma foldl_max_init_le (l : List Int) (a : Int) : a ≤ l.foldl max a := by
  induction l generalizing a with
  | nil => exact le_refl a
  | cons x xs ih => exact le_trans (le_max_left a x) (ih (max a x))

/-- Every member of the list is bounded by its `foldl max`. -/
lemma le_foldl_max_of_mem :
    ∀ (l : List Int) (a x : Int), x ∈ l → x ≤ l.foldl max a
  | [], _, _, hx => absurd hx (List.not_mem_nil _)
  | y :: ys, a, x, hx => by
    rcases List.mem_cons.mp hx with h | h
    · subst h
      exact le_trans (le_max_right a x) (foldl_max_init_le ys (max a x))
    · exact le_foldl_max_of_mem ys (max a y) x h

/-- The id of any record of a collection is bounded by `maxIdOf`. -/
lemma idOf_le_maxIdOf (col : Collection) (r : Obj) (n : Int)
    (hr : r ∈ col) (hn : idOf r = some n) : n ≤ maxIdOf col := by
  cases col with
  | nil => exact absurd hr (List.not_mem_nil _)
  | cons c cs =>
    have hmax : maxIdOf (c :: cs) =
        (cs.map (fun r => (idOf r).getD 0)).foldl max ((idOf c).getD 0) := rfl
    rcases List.mem_cons.mp hr with h | h
    · subst h
      rw [hmax, hn]
      exact foldl_max_init_le _ n
    · rw [hmax]
      have : n ∈ cs.map (fun r => (idOf r).getD 0) := by
        refine List.mem_map.mpr ⟨r, h, ?_⟩
        rw [hn]
        rfl
      exact le_foldl_max_of_mem _ _ _ this

/-- Updating the table that a lookup found replaces exactly that table. -/
lemma getTable_setTable (db : DB) (t : String) (col col2 : Collection)
    (h : db.getTable t = some col) :
    (db.setTable t col2).getTable t = some col2 := by
  induction db with
  | nil => simp [DB.getTable] at h
  | cons kc rest ih =>
    obtain ⟨k, c⟩ := kc
    by_cases hk : k = t
    · simp [DB.getTable, DB.setTable, hk]
    · simp [DB.getTable, DB.setTable, hk] at h ⊢
      exact ih h

/-- Property access distributes over object concatenation: the later part
wins when it binds the key. -/
lemma Obj.get_append (l1 l2 : Obj) (k : String) :
    Obj.get (l1 ++ l2) k =
      match Obj.get l2 k with
      | some w => some w
      | none => Obj.get l1 k := by
  induction l1 with
  | nil =>
    cases h : Obj.get l2 k <;> simp [Obj.get, h]
  | cons kv l1 ih =>
    obtain ⟨k1, v1⟩ := kv
    show Obj.get ((k1, v1) :: (l1 ++ l2)) k = _
    rw [Obj.get, ih]
    cases h2 : Obj.get l2 k <;> cases h1 : Obj.get l1 k <;>
      simp [Obj.get, h1, h2]

/-- A search over an appended list skips a first part with no match. -/
lemma find?_append_of_none {α} (p : α → Bool) (l1 l2 : List α)
    (h : l1.find? p = none) : (l1 ++ l2).find? p = l2.find? p := by
  induction l1 with
  | nil => rfl
  | cons x xs ih =>
    rw [List.cons_append]
    cases hx : p x with
    | true => simp [List.find?, hx] at h
    | false =>
      simp only [List.find?, hx] at h ⊢
      exact ih h

/-- After removing the first record bearing an id, no record with that id
remains, provided the stored id values of the collection are distinct. -/
lemma find?_eraseIdx_of_findIdx :
    ∀ (col : Collection) (id : Int) (index : Nat),
      findIdx (hasId id) col = some index →
      (col.map (fun r => Obj.get r "id")).Nodup →
      (col.eraseIdx index).find? (hasId id) = none
  | [], _, _, hidx, _ => by simp [findIdx] at hidx
  | c :: cs, id, index, hidx, hnd => by
    rw [List.map_cons, List.nodup_cons] at hnd
    cases hc : hasId id c with
    | true =>
      rw [findIdx, if_pos hc] at hidx
      injection hidx with hidx
      subst hidx
      rw [List.eraseIdx_cons_zero]
      refine List.find?_eq_none.mpr (fun r hr => ?_)
      intro hp
      apply hnd.1
      refine List.mem_map.mpr ⟨r, hr, ?_⟩
      have h1 : Obj.get r "id" = some (.vInt id) := of_decide_eq_true hp
      have h2 : Obj.get c "id" = some (.vInt id) := of_decide_eq_true hc
      rw [h1, h2]
    | false =>
      rw [findIdx, if_neg (by simp [hc])] at hidx
      cases hcs : findIdx (hasId id) cs with
      | none => rw [hcs] at hidx; simp at hidx
      | some j =>
        rw [hcs] at hidx
        simp at hidx
        subst hidx
        rw [List.eraseIdx_cons_succ]
        have tail := find?_eraseIdx_of_findIdx cs id j hcs hnd.2
        simp only [List.find?, hc]
        exact tail

/-- A throwing iteration inside the traversal aborts the whole loop. -/
lemma mapExcept_error {α β ε} (f : α → Except ε β) :
    ∀ (l : List α) (x : α) (e : ε), x ∈ l → f x = .error e →
      ∃ e2, mapExcept f l = .error e2
  | [], _, _, hx, _ => absurd hx (List.not_mem_nil _)
  | y :: ys, x, e, hx, hfx => by
    rcases List.mem_cons.mp hx with h | h
    · subst h
      exact ⟨e, by rw [mapExcept, hfx]⟩
    · cases hfy : f y with
      | error e1 => exact ⟨e1, by rw [mapExcept, hfy]⟩
      | ok b =>
        obtain ⟨e2, h2⟩ := mapExcept_error f ys x e h hfx
        exact ⟨e2, by rw [mapExcept, hfy, h2]⟩

/-!
Claim theorems.
-/

/-- Claim C3, counterexample: on an empty collection, a fields object that
itself carries an `id` key yields a stored record whose effective id is
the caller's value `5`, not `max(previous ids)+1 = 1` as the claim states
for *every* fields object. -/
theorem c3_create_id_not_fresh_counterexample :
    create [("t", [])] "t" [("id", Value.vInt 5)]
      = .ok ([("id", Value.vInt 1), ("id", Value.vInt 5)],
          [("t", [[("id", Value.vInt 1), ("id", Value.vInt 5)]])]) ∧
    idOf [("id", Value.vInt 1), ("id", Value.vInt 5)] = some 5 := by
  constructor <;> rfl

/-- Claim C3 (amended: the fields object does not itself bind `id`; see
C10 for the contrary case): `create` followed by `getById` on the fresh id
returns the stored record, whose id is `max(previous ids)+1` — `1` on an
empty collection — and whose other fields equal the input fields. -/
theorem c3_create_getById_roundtrip (db : DB) (t : String) (col : Collection)
    (fields : Obj)
    (hcol : db.getTable t = some col)
    (hwf : ∀ r ∈ col, ∃ n : Int, idOf r = some n)
    (hid : fields.get "id" = none) :
    ∃ record db2,
      create db t fields = .ok (record, db2) ∧
      idOf record = some ((if col.length > 0 then maxIdOf col else 0) + 1) ∧
      getById db2 t ((if col.length > 0 then maxIdOf col else 0) + 1)
        = .ok record ∧
      ∀ k, k ≠ "id" → record.get k = fields.get k := by
  have hrget : Obj.get
      (("id", Value.vInt ((if col.length > 0 then maxIdOf col else 0) + 1)) :: fields)
      "id" = some (.vInt ((if col.length > 0 then maxIdOf col else 0) + 1)) := by
    simp only [Obj.get, hid]
    simp
  refine ⟨("id", .vInt ((if col.length > 0 then maxIdOf col else 0) + 1)) :: fields,
    db.setTable t (col ++
      [("id", .vInt ((if col.length > 0 then maxIdOf col else 0) + 1)) :: fields]),
    ?_, ?_, ?_, ?_⟩
  · simp [create, hcol]
  · simp [idOf, hrget]
  · unfold getById
    rw [getTable_setTable db t col _ hcol]
    have hnone : col.find?
        (hasId ((if col.length > 0 then maxIdOf col else 0) + 1)) = none := by
      refine List.find?_eq_none.mpr (fun r hr => ?_)
      obtain ⟨n, hn⟩ := hwf r hr
      have hle : n ≤ maxIdOf col := idOf_le_maxIdOf col r n hr hn
      have hlen : col.length > 0 := List.length_pos.mpr (List.ne_nil_of_mem hr)
      intro hp
      have hget : Obj.get r "id"
          = some (.vInt ((if col.length > 0 then maxIdOf col else 0) + 1)) :=
        of_decide_eq_true hp
      have hidr : idOf r
          = some ((if col.length > 0 then maxIdOf col else 0) + 1) := by
        simp [idOf, hget]
      rw [hn] at hidr
      rw [if_pos hlen] at hidr
      have : n = maxIdOf col + 1 := by injection hidr
      omega
    simp only [find?_append_of_none _ _ _ hnone]
    simp [List.find?, hasId, hrget]
  · intro k hk
    show Obj.get
        (("id", Value.vInt ((if col.length > 0 then maxIdOf col else 0) + 1)) :: fields)
        k = fields.get k
    simp only [Obj.get]
    cases hfk : Obj.get fields k with
    | some w => simp
    | none => simp [Ne.symm hk]

/-- Claim C3, witness at a singleton collection and the fields object
binding only `nombre`. -/
theorem c3_create_getById_roundtrip_witness :
    Obj.get [("nombre", Value.vStr "x")] "id" = none ∧
    (∃ record db2,
      create [("t", [[("id", Value.vInt 1)]])] "t" [("nombre", Value.vStr "x")]
        = .ok (record, db2) ∧
      idOf record = some
        ((if ([[("id", Value.vInt 1)]] : Collection).length > 0
          then maxIdOf [[("id", Value.vInt 1)]] else 0) + 1) ∧
      getById db2 "t"
        ((if ([[("id", Value.vInt 1)]] : Collection).length > 0
          then maxIdOf [[("id", Value.vInt 1)]] else 0) + 1) = .ok record ∧
      ∀ k, k ≠ "id" → record.get k = Obj.get [("nombre", Value.vStr "x")] k) :=
  ⟨rfl, c3_create_getById_roundtrip [("t", [[("id", Value.vInt 1)]])] "t"
    [[("id", Value.vInt 1)]] [("nombre", Value.vStr "x")] rfl
    (by
      intro r hr
      rw [List.mem_singleton] at hr
      subst hr
      exact ⟨1, rfl⟩)
    rfl⟩

/-- Claim C4: `update` merges the partial fields over the existing record
and forcibly re-pins the identifier — even when the update object carries
a different `id` value, the stored and returned record keeps the original
id. -/
theorem c4_update_preserves_id (db : DB) (t : String) (col : Collection)
    (id : Int) (upd : Obj) (index : Nat)
    (hcol : db.getTable t = some col)
    (hidx : findIdx (hasId id) col = some index) :
    ∃ record,
      update db t id upd = .ok (record, db.setTable t (col.set index record)) ∧
      record.get "id" = some (.vInt id) ∧
      ∀ k, k ≠ "id" →
        record.get k =
          match upd.get k with
          | some v => some v
          | none => (col.getD index []).get k := by
  refine ⟨col.getD index [] ++ upd ++ [("id", .vInt id)], ?_, ?_, ?_⟩
  · simp [update, hcol, hidx]
  · show Obj.get ((col.getD index [] ++ upd) ++ [("id", .vInt id)]) "id" = _
    rw [Obj.get_append]
    simp [Obj.get]
  · intro k hk
    show Obj.get ((col.getD index [] ++ upd) ++ [("id", .vInt id)]) k = _
    rw [Obj.get_append]
    have hsk : Obj.get [("id", Value.vInt id)] k = none := by
      simp [Obj.get, Ne.symm hk]
    simp only [hsk]
    rw [Obj.get_append]

/-- Claim C4, witness: the update object carries `id: 99`, yet the stored
record keeps id `7`. -/
theorem c4_update_preserves_id_witness :
    ∃ record,
      update [("t", [[("id", Value.vInt 7), ("a", Value.vStr "x")]])] "t" 7
          [("id", Value.vInt 99), ("b", Value.vStr "y")]
        = .ok (record,
            DB.setTable [("t", [[("id", Value.vInt 7), ("a", Value.vStr "x")]])]
              "t" (([[("id", Value.vInt 7), ("a", Value.vStr "x")]] :
                Collection).set 0 record)) ∧
      record.get "id" = some (.vInt 7) ∧
      ∀ k, k ≠ "id" →
        record.get k =
          match Obj.get [("id", Value.vInt 99), ("b", Value.vStr "y")] k with
          | some v => some v
          | none =>
            (([[("id", Value.vInt 7), ("a", Value.vStr "x")]] :
              Collection).getD 0 []).get k :=
  c4_update_preserves_id [("t", [[("id", Value.vInt 7), ("a", Value.vStr "x")]])]
    "t" [[("id", Value.vInt 7), ("a", Value.vStr "x")]] 7
    [("id", Value.vInt 99), ("b", Value.vStr "y")] 0 rfl rfl

/-- Claim C5, counterexample: deleting the record with the maximum id
(`2`) lets the immediately following `create` assign `max(remaining)+1 = 2`
again — the deleted identifier is reused, contradicting "identifiers are
never reused after deletion". -/
theorem c5_deleted_id_reused_counterexample :
    deleteRec [("t", [[("id", Value.vInt 1)], [("id", Value.vInt 2)]])] "t" 2
      = .ok ([("id", Value.vInt 2)], [("t", [[("id", Value.vInt 1)]])]) ∧
    create [("t", [[("id", Value.vInt 1)]])] "t" []
      = .ok ([("id", Value.vInt 2)],
          [("t", [[("id", Value.vInt 1)], [("id", Value.vInt 2)]])]) ∧
    idOf [("id", Value.vInt 2)] = some 2 := by
  refine ⟨?_, ?_, ?_⟩ <;> rfl

/-- Claim C5 (amended: ids in the collection are pairwise distinct, and
the no-reuse guarantee holds for the immediately following `create`
provided some remaining record's id is at least the deleted id — when the
deleted id exceeded every remaining id, `max(remaining)+1` can reproduce
it, as the counterexample shows): `delete` followed by `getById` on the
same id fails with the not-found error, and the next `create` is not
assigned the deleted id under the stated guard. -/
theorem c5_delete_getById_fails (db : DB) (t : String) (col : Collection)
    (id : Int) (index : Nat) (fields : Obj)
    (hcol : db.getTable t = some col)
    (hidx : findIdx (hasId id) col = some index)
    (hnd : (col.map (fun r => Obj.get r "id")).Nodup)
    (hfid : fields.get "id" = none) :
    ∃ db2,
      deleteRec db t id = .ok (col.getD index [], db2) ∧
      getById db2 t id = .error (.notFound t id) ∧
      ∀ r m, r ∈ col.eraseIdx index → idOf r = some m → id ≤ m →
        ∃ record db3, create db2 t fields = .ok (record, db3) ∧
          idOf record ≠ some id := by
  refine ⟨db.setTable t (col.eraseIdx index), ?_, ?_, ?_⟩
  · simp [deleteRec, hcol, hidx]
  · unfold getById
    rw [getTable_setTable db t col _ hcol]
    simp only [find?_eraseIdx_of_findIdx col id index hidx hnd]
  · intro r m hr hm hle
    have hlen : (col.eraseIdx index).length > 0 :=
      List.length_pos.mpr (List.ne_nil_of_mem hr)
    refine ⟨("id", .vInt ((if (col.eraseIdx index).length > 0
        then maxIdOf (col.eraseIdx index) else 0) + 1)) :: fields,
      (db.setTable t (col.eraseIdx index)).setTable t
        (col.eraseIdx index ++
          [("id", .vInt ((if (col.eraseIdx index).length > 0
            then maxIdOf (col.eraseIdx index) else 0) + 1)) :: fields]),
      ?_, ?_⟩
    · unfold create
      rw [getTable_setTable db t col _ hcol]
    · have hmax : m ≤ maxIdOf (col.eraseIdx index) :=
        idOf_le_maxIdOf _ r m hr hm
      have hget2 : Obj.get (("id", Value.vInt
          (maxIdOf (col.eraseIdx index) + 1)) :: fields) "id"
          = some (.vInt (maxIdOf (col.eraseIdx index) + 1)) := by
        simp only [Obj.get, hfid]
        simp
      simp only [if_pos hlen, idOf, hget2]
      intro hcontra
      have : maxIdOf (col.eraseIdx index) + 1 = id := by
        injection hcontra
      omega

/-- Claim C5, witness: delete id `1` from a collection with ids `1` and
`3`; lookup then fails and the next create assigns `4 ≠ 1`. -/
theorem c5_delete_getById_fails_witness :
    ∃ db2,
      deleteRec [("t", [[("id", Value.vInt 1)], [("id", Value.vInt 3)]])] "t" 1
        = .ok (([[("id", Value.vInt 1)], [("id", Value.vInt 3)]] :
            Collection).getD 0 [], db2) ∧
      getById db2 "t" 1 = .error (.notFound "t" 1) ∧
      ∀ r m, r ∈ ([[("id", Value.vInt 1)], [("id", Value.vInt 3)]] :
          Collection).eraseIdx 0 → idOf r = some m → 1 ≤ m →
        ∃ record db3, create db2 "t" [] = .ok (record, db3) ∧
          idOf record ≠ some 1 :=
  c5_delete_getById_fails
    [("t", [[("id", Value.vInt 1)], [("id", Value.vInt 3)]])] "t"
    [[("id", Value.vInt 1)], [("id", Value.vInt 3)]] 1 0 []
    rfl rfl (by decide) rfl

/-- Claim C10: when the fields object itself binds `id`, the spread in
`create` lets the caller's value override the generated `max+1`, so the
stored and returned record carries the caller-supplied id (which may
duplicate an existing one); and `createTarea` forwards the caller's whole
object, `id` key included, to the generic `create` once the required
fields are truthy. -/
theorem c10_create_id_override (db : DB) (t : String) (col : Collection)
    (fields : Obj) (v : Value)
    (hcol : db.getTable t = some col)
    (hv : fields.get "id" = some v) :
    (∃ record,
      create db t fields = .ok (record, db.setTable t (col ++ [record])) ∧
      record.get "id" = some v) ∧
    ∀ data : Obj, truthy (data.get "descripcion") = true →
      truthy (data.get "empleadoId") = true →
      truthy (data.get "estado") = true →
      truthy (data.get "fecha") = true →
      createTarea db data = create db "tareas" data := by
  constructor
  · refine ⟨("id", .vInt ((if col.length > 0 then maxIdOf col else 0) + 1))
      :: fields, ?_, ?_⟩
    · simp [create, hcol]
    · simp only [Obj.get, hv]
  · intro data h1 h2 h3 h4
    unfold createTarea
    rw [if_neg]
    simp [h1, h2, h3, h4]

/-- Claim C10, witness: creating with `id: 1` on a collection already
holding id `1` stores a duplicate id, and a fully-truthy task object is
forwarded unchanged by `createTarea`. -/
theorem c10_create_id_override_witness :
    (∃ record,
      create [("t", [[("id", Value.vInt 1)]])] "t" [("id", Value.vInt 1)]
        = .ok (record,
            DB.setTable [("t", [[("id", Value.vInt 1)]])] "t"
              ([[("id", Value.vInt 1)]] ++ [record])) ∧
      record.get "id" = some (.vInt 1)) ∧
    ∀ data : Obj, truthy (data.get "descripcion") = true →
      truthy (data.get "empleadoId") = true →
      truthy (data.get "estado") = true →
      truthy (data.get "fecha") = true →
      createTarea [("t", [[("id", Value.vInt 1)]])] data
        = create [("t", [[("id", Value.vInt 1)]])] "tareas" data :=
  c10_create_id_override [("t", [[("id", Value.vInt 1)]])] "t"
    [[("id", Value.vInt 1)]] [("id", Value.vInt 1)] (.vInt 1) rfl rfl

/-- Claim C1: validating a token issued by `crearSesion` before its expiry
returns exactly the claims built from the user (equal to the input modulo
the timestamp field `iat`); past its expiry validation yields `none`; any
token whose signature does not match its content (an altered byte
anywhere) also yields `none` — the caller observes the same single
failure value for expiry and for tampering. -/
theorem c1_token_roundtrip (secret : String) (expSec nowMs : Nat)
    (cache : SessionCache) (u : UsuarioCompleto) (now : Nat) :
    (now < nowMs / 1000 + expSec →
      validarToken secret now (crearSesion secret expSec nowMs cache u).1.token
        = some ⟨u.usuario.id, u.usuario.usuario, some u.rol.nombre,
            u.rol.permisos, nowMs / 1000⟩) ∧
    (nowMs / 1000 + expSec ≤ now →
      validarToken secret now (crearSesion secret expSec nowMs cache u).1.token
        = none) ∧
    (∀ tok : Token,
      tok.sig ≠ (secret, tok.payload, tok.exp, tok.iss, tok.sub) →
      validarToken secret now tok = none) := by
  refine ⟨?_, ?_, ?_⟩
  · intro h
    simp [crearSesion, validarToken, jwtVerify, jwtSign, h]
  · intro h
    have hn : ¬ (now < nowMs / 1000 + expSec) := not_lt.mpr h
    simp [crearSesion, validarToken, jwtVerify, jwtSign, hn]
  · intro tok htok
    simp [validarToken, jwtVerify, htok]

/-- Claim C1, witness: round trip at clock `5` for a 10-second lifetime
issued at `0`, failure at clock `20`, and failure of a token signed under
a different secret, both failures being the same value `none`. -/
theorem c1_token_roundtrip_witness :
    validarToken "s" 5 (crearSesion "s" 10 0 [] wAdminC).1.token
      = some ⟨1, "admin", some "admin", ["manage_users"], 0⟩ ∧
    validarToken "s" 20 (crearSesion "s" 10 0 [] wAdminC).1.token = none ∧
    validarToken "s" 5
      ⟨⟨1, "admin", some "admin", ["manage_users"], 0⟩, 10, "backend-ifts",
        "1", ("other", ⟨1, "admin", some "admin", ["manage_users"], 0⟩, 10,
          "backend-ifts", "1")⟩ = none :=
  ⟨(c1_token_roundtrip "s" 10 0 [] wAdminC 5).1 (by decide),
   (c1_token_roundtrip "s" 10 0 [] wAdminC 20).2.1 (by decide),
   (c1_token_roundtrip "s" 10 0 [] wAdminC 5).2.2 _ (by decide)⟩

/-- Claim C2: with valid credentials of a stored user, `autenticarAdmin`
fails with `INSUFFICIENT_PERMISSIONS` when the resolved role name is not
`admin`, and succeeds when it is, the returned session and its token
claims carrying the administrator role name. -/
theorem c2_admin_gate (s : Store) (secret : String) (expSec nowMs : Nat)
    (cache : SessionCache) (uname pwd : String) (user : Usuario)
    (uc : UsuarioCompleto)
    (hfind : getUsuarioByUsername s uname = .ok user)
    (hpwd : bcryptCompare pwd user.password = true)
    (hcompleto : getUsuarioCompleto s user.id = .ok uc) :
    (uc.rol.nombre ≠ "admin" →
      (autenticarAdmin s secret expSec nowMs cache uname pwd).1
        = .failure "Acceso denegado: Se requieren permisos de administrador"
            "INSUFFICIENT_PERMISSIONS") ∧
    (uc.rol.nombre = "admin" →
      autenticarAdmin s secret expSec nowMs cache uname pwd
        = (.success "Autenticación exitosa" uc
            (crearSesion secret expSec nowMs cache uc).1 uc.rol.permisos,
           (crearSesion secret expSec nowMs cache uc).2) ∧
      (crearSesion secret expSec nowMs cache uc).1.token.payload.rol
        = some "admin" ∧
      (crearSesion secret expSec nowMs cache uc).1.usuarioRol
        = some "admin") := by
  have hauth : autenticarUsuario s secret expSec nowMs cache uname pwd
      = (.success "Autenticación exitosa" uc
          (crearSesion secret expSec nowMs cache uc).1 uc.rol.permisos,
         (crearSesion secret expSec nowMs cache uc).2) := by
    simp [autenticarUsuario, hfind, objTruthy, hpwd, hcompleto]
  constructor
  · intro hne
    have hadm : esAdministrador uc = false := by
      simp [esAdministrador, hne]
    simp [autenticarAdmin, hauth, hadm]
  · intro heq
    have hadm : esAdministrador uc = true := by
      simp [esAdministrador, heq]
    refine ⟨by simp [autenticarAdmin, hauth, hadm], ?_, ?_⟩
    · simp [crearSesion, jwtSign, heq]
    · simp [crearSesion, heq]

/-- Claim C2, witness: on the fixture store, the `medico`-role user with
valid credentials is rejected with `INSUFFICIENT_PERMISSIONS`, and the
`admin` user succeeds with a session whose claims carry role `admin`. -/
theorem c2_admin_gate_witness :
    (autenticarAdmin wStore "s" 10 0 [] "doc" "pw").1
      = .failure "Acceso denegado: Se requieren permisos de administrador"
          "INSUFFICIENT_PERMISSIONS" ∧
    (autenticarAdmin wStore "s" 10 0 [] "admin" "admin123"
        = (.success "Autenticación exitosa" wAdminC
            (crearSesion "s" 10 0 [] wAdminC).1 wAdminC.rol.permisos,
           (crearSesion "s" 10 0 [] wAdminC).2) ∧
      (crearSesion "s" 10 0 [] wAdminC).1.token.payload.rol = some "admin" ∧
      (crearSesion "s" 10 0 [] wAdminC).1.usuarioRol = some "admin") :=
  ⟨(c2_admin_gate wStore "s" 10 0 [] "doc" "pw" wDoc wDocC rfl rfl rfl).1
      (by decide),
   (c2_admin_gate wStore "s" 10 0 [] "admin" "admin123" wAdmin wAdminC
      rfl rfl rfl).2 rfl⟩

/-- Claim C6: for a cryptographically valid token, `obtenerSesion` on a
cache miss reconstructs the session from the token's embedded claims,
re-inserts it and returns it — absence from the cache is never a reason
to reject; on a hit with an active entry, that entry is returned with its
last activity refreshed to now. -/
theorem c6_session_cache (secret : String) (now nowMs : Nat)
    (cache : SessionCache) (tok : Token) (payload : Claims)
    (hval : validarToken secret now tok = some payload) :
    (cacheGet cache tok = none →
      obtenerSesion secret now nowMs cache tok
        = (some ⟨tok, payload.id, payload.usuario, payload.rol,
              payload.permisos, payload.iat * 1000, nowMs, true⟩,
           cacheSet cache tok
             ⟨tok, payload.id, payload.usuario, payload.rol,
              payload.permisos, payload.iat * 1000, nowMs, true⟩)) ∧
    (∀ ses, cacheGet cache tok = some ses → ses.activa = true →
      obtenerSesion secret now nowMs cache tok
        = (some { ses with ultimaActividad := nowMs },
           cacheSet cache tok { ses with ultimaActividad := nowMs })) := by
  constructor
  · intro hmiss
    simp [obtenerSesion, hval, hmiss]
  · intro ses hhit hact
    simp [obtenerSesion, hval, hhit, hact]

/-- Claim C6, witness: a freshly signed token absent from the empty cache
is reconstructed and re-inserted; a cache holding an active entry for it
is refreshed. -/
theorem c6_session_cache_witness :
    (obtenerSesion "s" 5 7000 []
        (jwtSign "s" ⟨1, "u", some "admin", [], 0⟩ 10 "backend-ifts" "1")
      = (some ⟨jwtSign "s" ⟨1, "u", some "admin", [], 0⟩ 10 "backend-ifts" "1",
            1, "u", some "admin", [], 0, 7000, true⟩,
         cacheSet [] (jwtSign "s" ⟨1, "u", some "admin", [], 0⟩ 10
            "backend-ifts" "1")
            ⟨jwtSign "s" ⟨1, "u", some "admin", [], 0⟩ 10 "backend-ifts" "1",
              1, "u", some "admin", [], 0, 7000, true⟩)) ∧
    (∀ ses, cacheGet [] (jwtSign "s" ⟨1, "u", some "admin", [], 0⟩ 10
          "backend-ifts" "1") = some ses → ses.activa = true →
      obtenerSesion "s" 5 7000 []
          (jwtSign "s" ⟨1, "u", some "admin", [], 0⟩ 10 "backend-ifts" "1")
        = (some { ses with ultimaActividad := 7000 },
           cacheSet [] (jwtSign "s" ⟨1, "u", some "admin", [], 0⟩ 10
              "backend-ifts" "1") { ses with ultimaActividad := 7000 })) :=
  ⟨(c6_session_cache "s" 5 7000 []
      (jwtSign "s" ⟨1, "u", some "admin", [], 0⟩ 10 "backend-ifts" "1")
      ⟨1, "u", some "admin", [], 0⟩ rfl).1 rfl,
   (c6_session_cache "s" 5 7000 []
      (jwtSign "s" ⟨1, "u", some "admin", [], 0⟩ 10 "backend-ifts" "1")
      ⟨1, "u", some "admin", [], 0⟩ rfl).2⟩

/-- Claim C8 (code bug): authenticating with a username that matches no
stored user is reported as `INTERNAL_ERROR`, not `USER_NOT_FOUND` — the
lookup throws inside `getUsuarioByUsername` and lands in the catch-all,
so the dedicated `USER_NOT_FOUND` branch of `autenticarUsuario` is
unreachable and the unknown-user outcome collapses into the internal
error outcome. -/
theorem c8_unknown_user_reported_as_internal :
    (autenticarUsuario ⟨[], [], [], [], [], []⟩ "secret" 10 0 [] "ghost"
        "pw").1
      = .failure "Error interno del servidor" "INTERNAL_ERROR" := rfl

/-- Claim C7, counterexample: an update whose `password` field is the
empty string is falsy, so the hashing step is skipped and the merge
persists the supplied plaintext `""` verbatim — the stored password is
the plaintext itself, not a salted hash of it. -/
theorem c7_empty_password_stored_plaintext_counterexample :
    updateUsuario ⟨[], [⟨1, "u", .hashed "old" 10, 1, 1, none⟩], [], [], [],
        []⟩ 10 1 ⟨none, some (.raw ""), none, none, none⟩
      = .ok (⟨1, "u", .raw "", 1, 1, none⟩,
          ⟨[], [⟨1, "u", .raw "", 1, 1, none⟩], [], [], [], []⟩) ∧
    (StoredPw.raw "" : StoredPw) ≠ bcryptHash "" 10 := by
  exact ⟨rfl, by decide⟩

/-- Claim C7 (amended: at creation, and at every update supplying a
*non-empty* password, the stored and returned password is the salted
one-way hash of the supplied secret, never the plaintext; an update
supplying the empty-string password bypasses hashing, as the
counterexample shows). -/
theorem c7_password_hashed (s : Store) (salt : Nat) (d : UsuarioData)
    (id : Int) (dp : UsuarioPatch) (p : String) :
    (∀ record s2, createUsuario s salt d = .ok (record, s2) →
      d.password = some p →
      record.password = bcryptHash p salt ∧
      record.password ≠ .raw p ∧
      s2.usuarios = s.usuarios ++ [record]) ∧
    (dp.password = some (.raw p) → p ≠ "" →
      ∀ record s2, updateUsuario s salt id dp = .ok (record, s2) →
        record.password = bcryptHash p salt ∧
        record.password ≠ .raw p ∧
        s2.usuarios = s.usuarios.set
          ((s.usuarios.findIdx? (fun r => decide (r.id = id))).getD 0)
          record) := by
  constructor
  · intro record s2 hok hp
    rw [createUsuario] at hok
    split at hok
    · exact absurd hok (by simp)
    · simp only [Except.ok.injEq, Prod.mk.injEq] at hok
      obtain ⟨h1, h2⟩ := hok
      subst h1
      refine ⟨by simp [hp, bcryptHash], by simp [bcryptHash], ?_⟩
      rw [← h2]
  · intro hp hne record s2 hok
    rw [updateUsuario] at hok
    have htr : truthyPw dp.password = true := by
      simp [hp, truthyPw, hne]
    rw [if_pos htr] at hok
    cases hfi : s.usuarios.findIdx? (fun r => decide (r.id = id)) with
    | none => rw [hfi] at hok; exact absurd hok (by simp)
    | some index =>
      rw [hfi] at hok
      simp only [Except.ok.injEq, Prod.mk.injEq] at hok
      obtain ⟨h1, h2⟩ := hok
      subst h1
      refine ⟨by simp [hp, patchPlain, bcryptHash], by simp [bcryptHash], ?_⟩
      subst h2
      simp [hfi]

/-- Claim C7, witness: creating a user with password `pw2` stores its
hash, and updating user `1` with password `new` stores its hash. -/
theorem c7_password_hashed_witness :
    ((⟨2, "u2", StoredPw.hashed "pw2" 10, 1, 1, none⟩ : Usuario).password
        = bcryptHash "pw2" 10 ∧
      (⟨2, "u2", StoredPw.hashed "pw2" 10, 1, 1, none⟩ : Usuario).password
        ≠ .raw "pw2" ∧
      ([⟨1, "u", StoredPw.hashed "old" 10, 1, 1, none⟩,
        ⟨2, "u2", StoredPw.hashed "pw2" 10, 1, 1, none⟩] : List Usuario)
        = [⟨1, "u", StoredPw.hashed "old" 10, 1, 1, none⟩] ++
          [⟨2, "u2", StoredPw.hashed "pw2" 10, 1, 1, none⟩]) ∧
    ((⟨1, "u", StoredPw.hashed "new" 10, 1, 1, none⟩ : Usuario).password
        = bcryptHash "new" 10 ∧
      (⟨1, "u", StoredPw.hashed "new" 10, 1, 1, none⟩ : Usuario).password
        ≠ .raw "new" ∧
      ([⟨1, "u", StoredPw.hashed "new" 10, 1, 1, none⟩] : List Usuario)
        = ([⟨1, "u", StoredPw.hashed "old" 10, 1, 1, none⟩] : List Usuario).set
          ((([⟨1, "u", StoredPw.hashed "old" 10, 1, 1, none⟩] :
              List Usuario).findIdx? (fun r => decide (r.id = 1))).getD 0)
          ⟨1, "u", StoredPw.hashed "new" 10, 1, 1, none⟩) :=
  ⟨(c7_password_hashed
      ⟨[], [⟨1, "u", .hashed "old" 10, 1, 1, none⟩], [], [], [], []⟩ 10
      ⟨some "u2", some "pw2", some 1, some 1, none⟩ 1
      ⟨none, some (.raw "new"), none, none, none⟩ "pw2").1 _ _ rfl rfl,
   (c7_password_hashed
      ⟨[], [⟨1, "u", .hashed "old" 10, 1, 1, none⟩], [], [], [], []⟩ 10
      ⟨some "u2", some "pw2", some 1, some 1, none⟩ 1
      ⟨none, some (.raw "new"), none, none, none⟩ "new").2 rfl (by decide)
      _ _ rfl⟩

/-- Claim C9, counterexample: a task whose `pacienteId` references no
patient record makes `getTareasCompletas` fail with the not-found error —
the composition does not degrade to an absent patient field as the claim
states. -/
theorem c9_dangling_patient_fails_counterexample :
    getTareasCompletas ⟨[], [], [], [⟨1, "Ana", "enfermera"⟩], [],
        [⟨1, "curar", 1, "pendiente", "2024-01-01", some 99⟩]⟩
      = .error (.notFound "pacientes" 99) := rfl

/-- Claim C9 (amended: a task resolves with its patient field absent only
when it carries no truthy `pacienteId`; a dangling `pacienteId` aborts
the whole `getTareasCompletas` with a thrown not-found error, and the
mandatory User→Role/Profile chain of `getUsuarioCompleto` likewise fails
when a link is dangling). -/
theorem c9_optional_join_behaviour (s : Store) :
    (∀ t emp, getEmpleadoById s t.empleadoId = .ok emp →
      truthyId t.pacienteId = false →
      resolveTarea s t = .ok ⟨t, emp, none⟩) ∧
    (∀ t e, t ∈ s.tareas → resolveTarea s t = .error e →
      ∃ e2, getTareasCompletas s = .error e2) ∧
    (∀ id u e, getUsuarioById s id = .ok u →
      getRoleById s u.rolId = .error e →
      getUsuarioCompleto s id = .error e) ∧
    (∀ id u rol e, getUsuarioById s id = .ok u →
      getRoleById s u.rolId = .ok rol →
      getPerfilById s u.perfilId = .error e →
      getUsuarioCompleto s id = .error e) := by
  refine ⟨?_, ?_, ?_, ?_⟩
  · intro t emp hemp hpac
    simp [resolveTarea, hemp, hpac]
  · intro t e hmem herr
    exact mapExcept_error (resolveTarea s) s.tareas t e hmem herr
  · intro id u e hu hrol
    simp [getUsuarioCompleto, hu, hrol]
  · intro id u rol e hu hrol hperf
    simp [getUsuarioCompleto, hu, hrol, hperf]

/-- Claim C9, witness: on a concrete store, a task without `pacienteId`
resolves with an absent patient, a task with dangling `pacienteId` makes
the whole composition fail, and a user whose role id references no role
makes `getUsuarioCompleto` fail. -/
theorem c9_optional_join_behaviour_witness :
    resolveTarea ⟨[], [⟨1, "u", .hashed "x" 10, 77, 1, none⟩], [],
        [⟨1, "Ana", "enfermera"⟩], [],
        [⟨1, "t1", 1, "pendiente", "f", none⟩,
         ⟨2, "t2", 1, "pendiente", "f", some 99⟩]⟩
      ⟨1, "t1", 1, "pendiente", "f", none⟩
      = .ok ⟨⟨1, "t1", 1, "pendiente", "f", none⟩, ⟨1, "Ana", "enfermera"⟩,
          none⟩ ∧
    (∃ e2, getTareasCompletas ⟨[], [⟨1, "u", .hashed "x" 10, 77, 1, none⟩],
        [], [⟨1, "Ana", "enfermera"⟩], [],
        [⟨1, "t1", 1, "pendiente", "f", none⟩,
         ⟨2, "t2", 1, "pendiente", "f", some 99⟩]⟩ = .error e2) ∧
    getUsuarioCompleto ⟨[], [⟨1, "u", .hashed "x" 10, 77, 1, none⟩], [],
        [⟨1, "Ana", "enfermera"⟩], [],
        [⟨1, "t1", 1, "pendiente", "f", none⟩,
         ⟨2, "t2", 1, "pendiente", "f", some 99⟩]⟩ 1
      = .error (.notFound "roles" 77) :=
  ⟨(c9_optional_join_behaviour _).1 ⟨1, "t1", 1, "pendiente", "f", none⟩
      ⟨1, "Ana", "enfermera"⟩ rfl rfl,
   (c9_optional_join_behaviour _).2.1 ⟨2, "t2", 1, "pendiente", "f", some 99⟩
      (.notFound "pacientes" 99) (by decide) rfl,
   (c9_optional_join_behaviour _).2.2.1 1 ⟨1, "u", .hashed "x" 10, 77, 1, none⟩
      (.notFound "roles" 77) rfl rfl⟩

end Backend
